import Mathlib

/-!
Verification of the result-formatting pipeline of the Kite MCP client
(`src/main.py`).  The Python functions `_extract_text_content`,
`_extract_url`, `_format_result`, `_format_json_data`, `_format_orders`,
`_format_holdings`, `_format_positions`, `_format_trades`,
`_format_generic_list` and `_format_dict` are shallowly embedded below.

JSON numbers are modelled as rationals; Python exceptions are modelled by
an explicit error type threaded through `Except`.  Evaluation order of the
Python statements and of the replacement fields inside f-strings is
preserved, because it determines which exception surfaces first.
-/

set_option maxRecDepth 8000

attribute [local semireducible] Rat.add Rat.mul Rat.sub Rat.inv

namespace KiteMCP

/-- Decoded JSON values (the result of `json.loads`). -/
inductive JVal where
  | null
  | bool (b : Bool)
  | num (q : ℚ)
  | str (s : String)
  | arr (elems : List JVal)
  | obj (fields : List (String × JVal))

/-- Python exceptions that the formatting pipeline can raise.
`jsonDecodeError` is the `json.JSONDecodeError` raised by `json.loads`;
the others are the built-in `TypeError`, `ValueError`, `AttributeError`
and `IndexError`. -/
inductive PyErr where
  | typeError
  | valueError
  | attributeError
  | indexError
  | jsonDecodeError
deriving DecidableEq

/-- Sequencing of possibly-raising Python computations
(explicit `Except` bind, kept as a plain function so proofs unfold it). -/
def eb {α β : Type} (x : Except PyErr α) (f : α → Except PyErr β) : Except PyErr β :=
  match x with
  | .error e => .error e
  | .ok a => f a

@[simp] theorem eb_ok {α β : Type} (a : α) (f : α → Except PyErr β) :
    eb (.ok a) f = f a := rfl

@[simp] theorem eb_error {α β : Type} (e : PyErr) (f : α → Except PyErr β) :
    eb (.error e) f = .error e := rfl

/-! ### String helpers shared by the formatters -/

/-- `"\n".join`-style joining. -/
def joinNL : List String → String
  | [] => ""
  | [x] => x
  | x :: xs => x ++ "\n" ++ joinNL xs

/-- `'=' * n` separator lines. -/
def eqLine (n : Nat) : String := String.mk (List.replicate n '=')

/-- Python format spec `:<w` on a string: pad on the right with spaces,
never truncate. -/
def padL (s : String) (w : Nat) : String :=
  s ++ String.mk (List.replicate (w - s.length) ' ')

/-- Python format spec `:>w` on a string: pad on the left with spaces. -/
def padR (s : String) (w : Nat) : String :=
  String.mk (List.replicate (w - s.length) ' ') ++ s

/-- Floor of a rational as an integer (`q.num.fdiv q.den`). -/
def qfloor (q : ℚ) : Int := q.num.fdiv (q.den : Int)

/-- Round a rational to the nearest integer, ties to even
(the rounding used by Python's fixed-point float formatting). -/
def roundHalfEven (q : ℚ) : Int :=
  let f := qfloor q
  let r := q - (f : ℚ)
  if r < 1/2 then f
  else if 1/2 < r then f + 1
  else if f % 2 = 0 then f else f + 1

/-- Two decimal digits with a leading zero. -/
def twoDigits (n : Nat) : String :=
  (if n < 10 then "0" else "") ++ toString n

/-- Helper for `fix2`: renders `n` hundredths as `intpart.dd`. -/
def fix2core (n : Nat) : String :=
  toString (n / 100) ++ "." ++ twoDigits (n % 100)

/-- Python format spec `:.2f` applied to a rational. -/
def fix2 (q : ℚ) : String :=
  let r := roundHalfEven (q * 100)
  if r < 0 then "-" ++ fix2core (-r).toNat else fix2core r.toNat

/-- Insert thousands separators into a digit list given least-significant
first; `fuel` bounds the recursion. -/
def commaRevF : Nat → List Char → List Char
  | _, [] => []
  | 0, ds => ds
  | fuel + 1, ds =>
    let c := ds.take 3
    let rest := ds.drop 3
    if rest.isEmpty then c else c ++ ',' :: commaRevF fuel rest

/-- `n` rendered with thousands separators (Python `{:,}` on a Nat). -/
def commaGroup (n : Nat) : String :=
  let ds := (toString n).toList.reverse
  String.mk (commaRevF ds.length ds).reverse

/-- Helper for `commaFix2`: `n` hundredths with grouped integer part. -/
def commaFix2core (n : Nat) : String :=
  commaGroup (n / 100) ++ "." ++ twoDigits (n % 100)

/-- Python format spec `:,.2f` applied to a rational. -/
def commaFix2 (q : ℚ) : String :=
  let r := roundHalfEven (q * 100)
  if r < 0 then "-" ++ commaFix2core (-r).toNat else commaFix2core r.toNat

/-- Python format spec `:+.2f` applied to a rational. -/
def plusFix2 (q : ℚ) : String :=
  let r := roundHalfEven (q * 100)
  if r < 0 then "-" ++ fix2core (-r).toNat else "+" ++ fix2core r.toNat

/-- Decimal digits of the fractional part `n / d` (with `n < d`),
`fuel`-bounded; every float that reaches the formatter has a terminating
decimal expansion. -/
def fracDigits : Nat → Nat → Nat → String
  | 0, _, _ => ""
  | _, 0, _ => ""
  | fuel + 1, n, d =>
    let m := n * 10
    String.singleton (Char.ofNat (48 + m / d)) ++ fracDigits fuel (m % d) d

/-- `str(x)` / `repr(x)` for a number: integers without a decimal point,
other rationals as (terminating) decimals. -/
def jnumRepr (q : ℚ) : String :=
  if q.den = 1 then toString q.num
  else if q < 0 then
    "-" ++ toString ((-q).num.toNat / (-q).den) ++ "." ++
      fracDigits 30 ((-q).num.toNat % (-q).den) (-q).den
  else
    toString (q.num.toNat / q.den) ++ "." ++ fracDigits 30 (q.num.toNat % q.den) q.den

/-- Python `{:,}` on an int/float value (used by `_format_dict`). -/
def commaNum (q : ℚ) : String :=
  if q.den = 1 then
    (if q.num < 0 then "-" else "") ++ commaGroup q.num.natAbs
  else
    (if q < 0 then "-" else "") ++ commaGroup (q.num.natAbs / q.den) ++ "." ++
      fracDigits 30 (q.num.natAbs % q.den) q.den

mutual
/-- Python `repr()` of a decoded JSON value. -/
def pyRepr : JVal → String
  | .null => "None"
  | .bool b => if b then "True" else "False"
  | .num q => jnumRepr q
  | .str s => "'" ++ s ++ "'"
  | .arr xs => "[" ++ pyReprElems xs ++ "]"
  | .obj fs => "\x7b" ++ pyReprMembers fs ++ "\x7d"

def pyReprElems : List JVal → String
  | [] => ""
  | [x] => pyRepr x
  | x :: xs => pyRepr x ++ ", " ++ pyReprElems xs

def pyReprMembers : List (String × JVal) → String
  | [] => ""
  | [kv] => "'" ++ kv.1 ++ "': " ++ pyRepr kv.2
  | kv :: kvs => "'" ++ kv.1 ++ "': " ++ pyRepr kv.2 ++ ", " ++ pyReprMembers kvs
end

/-- Python `str()` of a decoded JSON value (as interpolated by f-strings). -/
def pyStrOf : JVal → String
  | .null => "None"
  | .bool b => if b then "True" else "False"
  | .num q => jnumRepr q
  | .str s => s
  | .arr xs => "[" ++ pyReprElems xs ++ "]"
  | .obj fs => "\x7b" ++ pyReprMembers fs ++ "\x7d"

/-! ### `json.dumps(data, indent=2)` -/

/-- Escaping inside JSON string output. -/
def jsonEscapeChar (c : Char) : String :=
  if c = '"' then "\\\"" else if c = '\\' then "\\\\"
  else if c = '\n' then "\\n" else if c = '\t' then "\\t"
  else if c = '\r' then "\\r" else String.singleton c

def jsonEscape (s : String) : String :=
  String.join (s.toList.map jsonEscapeChar)

/-- Indentation of `2 * lvl` spaces. -/
def jsonInd (lvl : Nat) : String := String.mk (List.replicate (2 * lvl) ' ')

mutual
/-- `json.dumps(v, indent=2)` at nesting level `lvl`. -/
def jsonDumpsAt (lvl : Nat) : JVal → String
  | .null => "null"
  | .bool b => if b then "true" else "false"
  | .num q => jnumRepr q
  | .str s => "\"" ++ jsonEscape s ++ "\""
  | .arr xs =>
    if xs.isEmpty then "[]"
    else "[\n" ++ jsonInd (lvl + 1) ++ jsonDumpsElems (lvl + 1) xs ++ "\n" ++
      jsonInd lvl ++ "]"
  | .obj fs =>
    if fs.isEmpty then "\x7b\x7d"
    else "\x7b\n" ++ jsonInd (lvl + 1) ++ jsonDumpsMembers (lvl + 1) fs ++ "\n" ++
      jsonInd lvl ++ "\x7d"

def jsonDumpsElems (lvl : Nat) : List JVal → String
  | [] => ""
  | [x] => jsonDumpsAt lvl x
  | x :: xs => jsonDumpsAt lvl x ++ ",\n" ++ jsonInd lvl ++ jsonDumpsElems lvl xs

def jsonDumpsMembers (lvl : Nat) : List (String × JVal) → String
  | [] => ""
  | [kv] => "\"" ++ jsonEscape kv.1 ++ "\": " ++ jsonDumpsAt lvl kv.2
  | kv :: kvs => "\"" ++ jsonEscape kv.1 ++ "\": " ++ jsonDumpsAt lvl kv.2 ++ ",\n" ++
      jsonInd lvl ++ jsonDumpsMembers lvl kvs
end

/-- `json.dumps(data, indent=2)`. -/
def json_dumps (v : JVal) : String := jsonDumpsAt 0 v

/-! ### Python-level operations used by the formatters -/

/-- First binding of a key in a decoded JSON object
(Python dict keys are unique, so first = only). -/
def lookupJ : List (String × JVal) → String → Option JVal
  | [], _ => none
  | kv :: rest, k => if kv.1 = k then some kv.2 else lookupJ rest k

/-- Python `x.get(key, default)`: total on dicts, raises `AttributeError`
on every other value. -/
def jget (o : JVal) (k : String) (dflt : JVal) : Except PyErr JVal :=
  match o with
  | .obj fs => .ok ((lookupJ fs k).getD dflt)
  | _ => .error .attributeError

/-- Numeric view of a Python value: ints/floats are numbers and `bool`
coerces to 0/1 in arithmetic and comparisons; everything else is
non-numeric. -/
def toNumQ : JVal → Option ℚ
  | .num q => some q
  | .bool b => some (if b then 1 else 0)
  | _ => none

/-- Python `v[:n]`: slices strings and lists, raises `TypeError` otherwise. -/
def pyTake (n : Nat) : JVal → Except PyErr JVal
  | .str s => .ok (.str (String.mk (s.toList.take n)))
  | .arr xs => .ok (.arr (xs.take n))
  | _ => .error .typeError

/-- Python `v[-n:]`: slices strings and lists, raises `TypeError` otherwise. -/
def pyTakeLast (n : Nat) : JVal → Except PyErr JVal
  | .str s => .ok (.str (String.mk (s.toList.drop (s.toList.length - n))))
  | .arr xs => .ok (.arr (xs.drop (xs.length - n)))
  | _ => .error .typeError

/-- Python format spec `:<w` applied to an f-string value: strings pad,
numbers and bools render through `int.__format__`, and `None`, lists and
dicts raise `TypeError` (`object.__format__` rejects non-empty specs). -/
def pyFmtAlign (v : JVal) (w : Nat) : Except PyErr String :=
  match v with
  | .str s => .ok (padL s w)
  | .num q => .ok (padL (jnumRepr q) w)
  | .bool b => .ok (padL (if b then "1" else "0") w)
  | _ => .error .typeError

/-- Python format spec `:<w.2f`: numbers and bools format, strings raise
`ValueError` (unknown format code `f` for `str`), `None`/lists/dicts raise
`TypeError`. -/
def pyFmtFloat (v : JVal) (w : Nat) : Except PyErr String :=
  match v with
  | .num q => .ok (padL (fix2 q) w)
  | .bool b => .ok (padL (if b then "1.00" else "0.00") w)
  | .str _ => .error .valueError
  | _ => .error .typeError

/-- Python multiplication of two record fields as used in
`_format_holdings` (`avg_price * qty`, `ltp * qty`): numeric × numeric
succeeds; every mistyped combination surfaces as `TypeError` (either at
the `*` itself or at the `investment > 0` comparison that follows
immediately). -/
def pyMulNum (x y : JVal) : Except PyErr ℚ :=
  match toNumQ x, toNumQ y with
  | some a, some b => .ok (a * b)
  | _, _ => .error .typeError

/-- Python `pnl >= 0`: numeric comparison, `TypeError` otherwise. -/
def pyGeZero (v : JVal) : Except PyErr Bool :=
  match toNumQ v with
  | some q => .ok (decide (0 ≤ q))
  | none => .error .typeError

/-- `src/main.py:228` — `f"₹{pnl:,.2f}" if pnl >= 0 else f"-₹{abs(pnl):,.2f}"`. -/
def pnlStr (v : JVal) : Except PyErr String :=
  eb (pyGeZero v) fun ge =>
  match toNumQ v with
  | some q => .ok (if ge then "₹" ++ commaFix2 q else "-₹" ++ commaFix2 (-q))
  | none => .error .typeError

/-- `src/main.py:223` — per-row holdings P&L percentage:
`((current_value - investment) / investment * 100) if investment > 0 else 0`. -/
def hPnlPct (investment current_value : ℚ) : ℚ :=
  if investment > 0 then (current_value - investment) / investment * 100 else 0

/-- `src/main.py:258` — per-row positions P&L percentage:
`((ltp - avg_price) / avg_price * 100) if avg_price > 0 else 0`, where the
comparison and subtraction follow Python typing rules. -/
def pPnlPct (avg ltp : JVal) : Except PyErr ℚ :=
  match toNumQ avg with
  | none => .error .typeError
  | some a =>
    if a > 0 then
      match toNumQ ltp with
      | none => .error .typeError
      | some l => .ok ((l - a) / a * 100)
    else .ok 0

/-- Python `s.split(c)` for a one-character separator, on char lists. -/
def splitChar (c : Char) : List Char → List (List Char)
  | [] => [[]]
  | x :: xs =>
    if x = c then [] :: splitChar c xs
    else
      match splitChar c xs with
      | [] => [[x]]
      | h :: t => (x :: h) :: t

/-- Python `'T' in v`: substring test on strings (single-character needle,
so char membership), element membership on lists, key membership on dicts,
`TypeError` on non-iterables. -/
def pyContainsT (v : JVal) : Except PyErr Bool :=
  match v with
  | .str s => .ok (s.toList.contains 'T')
  | .arr xs => .ok (xs.any fun x => match x with | .str s => s = "T" | _ => false)
  | .obj fs => .ok (fs.any fun kv => kv.1 = "T")
  | _ => .error .typeError

/-- Python `.split('T')` on a record field: strings split; every other
value lacks the attribute and raises `AttributeError`. -/
def pySplitT (v : JVal) : Except PyErr (List (List Char)) :=
  match v with
  | .str s => .ok (splitChar 'T' s.toList)
  | _ => .error .attributeError

/-- `src/main.py:192/284` — the timestamp expression
`x.get(key, 'N/A').split('T')[1][:8] if 'T' in x.get(key, '') else 'N/A'`. -/
def tsOf (o : JVal) (key : String) : Except PyErr JVal :=
  eb (jget o key (.str "")) fun v0 =>
  eb (pyContainsT v0) fun c =>
  if c then
    eb (jget o key (.str "N/A")) fun v1 =>
    eb (pySplitT v1) fun parts =>
    match parts with
    | _ :: p :: _ => .ok (.str (String.mk (p.take 8)))
    | _ => .error .indexError
  else .ok (.str "N/A")

/-! ### The tool-result envelope and `_extract_text_content` -/

/-- One element of an envelope's content sequence: it may or may not
expose a `type` discriminator, and may or may not expose a `text` field. -/
structure Item where
  type? : Option String
  text? : Option String

/-- The shapes `_extract_text_content` distinguishes: an object with a
list-valued `content` attribute, an object whose `content` is not a list,
a bare list, or anything else. -/
inductive EnvShape where
  | withList (items : List Item)
  | withNonList
  | bare (items : List Item)
  | opaque2

/-- A tool result envelope; `reprStr` is what Python `str(result)` yields. -/
structure Envelope where
  shape : EnvShape
  reprStr : String

/-- The in-order scan of `_extract_text_content`: return the `text` of the
first element whose `type` equals `"text"`; accessing a missing `text`
attribute raises. -/
def scanItems : List Item → Except PyErr (Option String)
  | [] => .ok none
  | i :: rest =>
    if i.type? = some "text" then
      match i.text? with
      | some t => .ok (some t)
      | none => .error .attributeError
    else scanItems rest

/-- `src/main.py:29-39` — `_extract_text_content`. -/
def extract_text_content (result : Envelope) : Except PyErr (Option String) :=
  match result.shape with
  | .withList items => scanItems items
  | .withNonList => .ok none
  | .bare items => scanItems items
  | .opaque2 => .ok none

/-! ### `_extract_url` -/

/-- Python `\s` for the ASCII whitespace characters. -/
def isPyWs (c : Char) : Bool :=
  c = ' ' || c = '\t' || c = '\n' || c = '\r' || c = '\x0b' || c = '\x0c'

/-- Characters admitted by the regex class `[^\s\)]`. -/
def isUrlBodyChar (c : Char) : Bool := !isPyWs c && c != ')'

/-- The literal `https://` as characters. -/
def httpsChars : List Char := "https://".toList

/-- All matches of `re.findall(r'https://[^\s\)]+\S+', text)`, scanning
left to right, non-overlapping, greedy with backtracking.  At an
occurrence of `https://`, let `run` be the maximal following run of
non-whitespace characters: the regex matches `https://` ++ `run` exactly
when `run` has at least two characters and does not start with `)`
(`[^\s\)]+` needs one character, the trailing `\S+` at least one more,
with backtracking allowing later characters to be `)`). -/
def scanUrls : Nat → List Char → List String
  | 0, _ => []
  | _ + 1, [] => []
  | fuel + 1, c :: rest =>
    if httpsChars.isPrefixOf (c :: rest) then
      let after := (c :: rest).drop 8
      let run := after.takeWhile (fun ch => !isPyWs ch)
      if 2 ≤ run.length && isUrlBodyChar (run.headD ' ') then
        ("https://" ++ String.mk run) :: scanUrls fuel (after.drop run.length)
      else scanUrls fuel rest
    else scanUrls fuel rest

/-- `src/main.py:41-45` — `_extract_url`: the last match, or `None`. -/
def extract_url (text : String) : Option String :=
  (scanUrls (text.length + 1) text.toList).getLast?

/-! ### `json.loads`

A recursive-descent parser for the JSON subset exchanged with the server
(objects, arrays, strings with the common escapes, numbers with optional
fraction and exponent, `true`/`false`/`null`).  Failure models
`json.JSONDecodeError`. -/

def jsonWsChars : List Char := [' ', '\t', '\n', '\r']

def skipWs (cs : List Char) : List Char :=
  cs.dropWhile (fun c => jsonWsChars.contains c)

/-- Body of a JSON string after the opening quote; returns the decoded
characters and the remainder after the closing quote. -/
def parseStrChars : List Char → Option (List Char × List Char)
  | [] => none
  | '"' :: rest => some ([], rest)
  | '\\' :: e :: rest =>
    (match e with
     | '"' => some '"'
     | '\\' => some '\\'
     | '/' => some '/'
     | 'n' => some '\n'
     | 't' => some '\t'
     | 'r' => some '\r'
     | _ => none).bind fun c =>
      (parseStrChars rest).map fun (sr : List Char × List Char) => (c :: sr.1, sr.2)
  | c :: rest => (parseStrChars rest).map fun sr => (c :: sr.1, sr.2)

def digitVal (c : Char) : Nat := c.toNat - 48

def digitsToNat (ds : List Char) : Nat :=
  ds.foldl (fun a c => a * 10 + digitVal c) 0

/-- Parse a JSON number at the head of the input (after an optional minus
sign has been consumed by the caller). -/
def parseNumBody (cs : List Char) : Option (ℚ × List Char) :=
  let ip := cs.takeWhile Char.isDigit
  if ip.isEmpty then none
  else
    let rest := cs.drop ip.length
    let intPart : ℚ := (digitsToNat ip : ℚ)
    let (q1, rest1) : ℚ × List Char :=
      match rest with
      | '.' :: more =>
        let fp := more.takeWhile Char.isDigit
        if fp.isEmpty then (intPart, rest)
        else (intPart + (digitsToNat fp : ℚ) / ((10 : ℚ) ^ fp.length), more.drop fp.length)
      | _ => (intPart, rest)
    match rest1 with
    | 'e' :: more => parseExp q1 more
    | 'E' :: more => parseExp q1 more
    | _ => some (q1, rest1)
where
  parseExp (q : ℚ) (cs : List Char) : Option (ℚ × List Char) :=
    let (sign, body) : Bool × List Char :=
      match cs with
      | '+' :: b => (false, b)
      | '-' :: b => (true, b)
      | _ => (false, cs)
    let ds := body.takeWhile Char.isDigit
    if ds.isEmpty then none
    else
      let e := digitsToNat ds
      some (if sign then q / ((10 : ℚ) ^ e) else q * ((10 : ℚ) ^ e), body.drop ds.length)

mutual
/-- Parse one JSON value; `fuel` bounds the recursion depth. -/
def parseVal : Nat → List Char → Option (JVal × List Char)
  | 0, _ => none
  | fuel + 1, cs =>
    match skipWs cs with
    | '"' :: rest => (parseStrChars rest).map fun sr => (.str (String.mk sr.1), sr.2)
    | '-' :: rest => (parseNumBody rest).map fun qr => (.num (-qr.1), qr.2)
    | '[' :: rest =>
      (match skipWs rest with
       | ']' :: rest2 => some (.arr [], rest2)
       | _ => (parseElems fuel rest).map fun er => (.arr er.1, er.2))
    | '\x7b' :: rest =>
      (match skipWs rest with
       | '\x7d' :: rest2 => some (.obj [], rest2)
       | _ => (parseMembers fuel rest).map fun mr => (.obj mr.1, mr.2))
    | 't' :: 'r' :: 'u' :: 'e' :: rest => some (.bool true, rest)
    | 'f' :: 'a' :: 'l' :: 's' :: 'e' :: rest => some (.bool false, rest)
    | 'n' :: 'u' :: 'l' :: 'l' :: rest => some (.null, rest)
    | cs2 => (parseNumBody cs2).map fun qr => (.num qr.1, qr.2)

/-- Parse comma-separated array elements up to the closing bracket. -/
def parseElems : Nat → List Char → Option (List JVal × List Char)
  | 0, _ => none
  | fuel + 1, cs =>
    (parseVal fuel cs).bind fun vr =>
      match skipWs vr.2 with
      | ',' :: rest => (parseElems fuel rest).map fun er => (vr.1 :: er.1, er.2)
      | ']' :: rest => some ([vr.1], rest)
      | _ => none

/-- Parse comma-separated object members up to the closing brace. -/
def parseMembers : Nat → List Char → Option (List (String × JVal) × List Char)
  | 0, _ => none
  | fuel + 1, cs =>
    match skipWs cs with
    | '"' :: rest =>
      (parseStrChars rest).bind fun kr =>
        match skipWs kr.2 with
        | ':' :: rest2 =>
          (parseVal fuel rest2).bind fun vr =>
            match skipWs vr.2 with
            | ',' :: rest3 =>
              (parseMembers fuel rest3).map fun mr =>
                ((String.mk kr.1, vr.1) :: mr.1, mr.2)
            | '\x7d' :: rest3 => some ([(String.mk kr.1, vr.1)], rest3)
            | _ => none
        | _ => none
    | _ => none
end

/-- `json.loads(text)`: parse the whole text, demanding only trailing
whitespace after the value; raises `json.JSONDecodeError` otherwise. -/
def json_loads (text : String) : Except PyErr JVal :=
  match parseVal (text.length + 1) text.toList with
  | some (v, rest) => if (skipWs rest).isEmpty then .ok v else .error .jsonDecodeError
  | none => .error .jsonDecodeError

/-! ### The table formatters -/

/-- `mapM` over `Except`, evaluating left to right like the Python loops. -/
def ebMapM {α β : Type} (f : α → Except PyErr β) : List α → Except PyErr (List β)
  | [] => .ok []
  | a :: as => eb (f a) fun b => eb (ebMapM f as) fun bs => .ok (b :: bs)

/-- `src/main.py:181` — the orders table header row. -/
def ordersHeader : String :=
  padL "Order ID" 20 ++ " " ++ padL "Symbol" 15 ++ " " ++ padL "Type" 5 ++ " " ++
    padL "Qty" 5 ++ " " ++ padL "Price" 10 ++ " " ++ padL "Avg" 10 ++ " " ++
    padL "Status" 12 ++ " " ++ padL "Time" 20

/-- `src/main.py:184-194` — one iteration of the orders loop: field
accesses in source order, then the f-string's replacement fields left to
right. -/
def orderLine (order : JVal) : Except PyErr String :=
  eb (jget order "order_id" (.str "N/A")) fun oid0 =>
  eb (pyTakeLast 10 oid0) fun oid =>
  eb (jget order "tradingsymbol" (.str "N/A")) fun sym0 =>
  eb (pyTake 14 sym0) fun sym =>
  eb (jget order "transaction_type" (.str "N/A")) fun tx0 =>
  eb (pyTake 4 tx0) fun tx =>
  eb (jget order "quantity" (.num 0)) fun qty =>
  eb (jget order "price" (.num 0)) fun price =>
  eb (jget order "average_price" (.num 0)) fun avg =>
  eb (jget order "status" (.str "N/A")) fun st0 =>
  eb (pyTake 11 st0) fun st =>
  eb (tsOf order "order_timestamp") fun ts =>
  eb (pyFmtAlign oid 20) fun f1 =>
  eb (pyFmtAlign sym 15) fun f2 =>
  eb (pyFmtAlign tx 5) fun f3 =>
  eb (pyFmtAlign qty 5) fun f4 =>
  eb (pyFmtFloat price 10) fun f5 =>
  eb (pyFmtFloat avg 10) fun f6 =>
  eb (pyFmtAlign st 12) fun f7 =>
  eb (pyFmtAlign ts 20) fun f8 =>
  .ok (f1 ++ " " ++ f2 ++ " " ++ f3 ++ " " ++ f4 ++ " " ++ f5 ++ " " ++ f6 ++ " " ++
    f7 ++ " " ++ f8)

/-- `src/main.py:174-199` — `_format_orders`. -/
def format_orders (orders : List JVal) : Except PyErr String :=
  if orders.isEmpty then .ok "No orders found"
  else
    eb (ebMapM orderLine orders) fun rows =>
    .ok (joinNL (("\n" ++ eqLine 100) :: ordersHeader :: eqLine 100 :: rows ++
      [eqLine 100, "\nTotal orders: " ++ toString orders.length]))

/-- `src/main.py:208` — the holdings table header row. -/
def holdingsHeader : String :=
  padL "Symbol" 15 ++ " " ++ padL "Qty" 8 ++ " " ++ padL "Avg Cost" 12 ++ " " ++
    padL "LTP" 12 ++ " " ++ padL "P&L" 15 ++ " " ++ padL "P&L %" 10

/-- `src/main.py:214-229` — one iteration of the holdings loop.  Returns
the rendered row together with the row's `investment` and
`current_value`, which the loop adds to the running totals. -/
def holdingsRow (holding : JVal) : Except PyErr (String × ℚ × ℚ) :=
  eb (jget holding "tradingsymbol" (.str "N/A")) fun sym0 =>
  eb (pyTake 14 sym0) fun sym =>
  eb (jget holding "quantity" (.num 0)) fun qty =>
  eb (jget holding "average_price" (.num 0)) fun avg =>
  eb (jget holding "last_price" (.num 0)) fun ltp =>
  eb (jget holding "pnl" (.num 0)) fun pnl =>
  eb (pyMulNum avg qty) fun investment =>
  eb (pyMulNum ltp qty) fun current_value =>
  let pct := hPnlPct investment current_value
  eb (pnlStr pnl) fun ps =>
  eb (pyFmtAlign sym 15) fun f1 =>
  eb (pyFmtAlign qty 8) fun f2 =>
  eb (pyFmtFloat avg 10) fun f3 =>
  eb (pyFmtFloat ltp 10) fun f4 =>
  .ok (f1 ++ " " ++ f2 ++ " ₹" ++ f3 ++ " ₹" ++ f4 ++ " " ++ padL ps 15 ++ " " ++
    padR (fix2 pct) 6 ++ "%", investment, current_value)

/-- The holdings loop of `src/main.py:214-229`: accumulates the rendered
rows and the running `total_investment` / `total_current`. -/
def holdingsFold : List JVal → ℚ → ℚ → Except PyErr (List String × ℚ × ℚ)
  | [], ti, tc => .ok ([], ti, tc)
  | h :: rest, ti, tc =>
    eb (holdingsRow h) fun r =>
    eb (holdingsFold rest (ti + r.2.1) (tc + r.2.2)) fun acc =>
    .ok (r.1 :: acc.1, acc.2)

/-- `src/main.py:201-238` — `_format_holdings`. -/
def format_holdings (holdings : List JVal) : Except PyErr String :=
  if holdings.isEmpty then .ok "No holdings found"
  else
    eb (holdingsFold holdings 0 0) fun acc =>
    let ti := acc.2.1
    let tc := acc.2.2
    let total_pnl := tc - ti
    let total_pnl_pct := if ti > 0 then total_pnl / ti * 100 else 0
    .ok (joinNL (("\n" ++ eqLine 90) :: holdingsHeader :: eqLine 90 :: acc.1 ++
      [eqLine 90,
       "\nTotal Investment: ₹" ++ commaFix2 ti,
       "Current Value: ₹" ++ commaFix2 tc,
       "Total P&L: ₹" ++ commaFix2 total_pnl ++ " (" ++ plusFix2 total_pnl_pct ++ "%)"]))

/-- `src/main.py:247` — the positions table header row. -/
def positionsHeader : String :=
  padL "Symbol" 15 ++ " " ++ padL "Product" 8 ++ " " ++ padL "Qty" 6 ++ " " ++
    padL "Avg" 10 ++ " " ++ padL "LTP" 10 ++ " " ++ padL "P&L" 15 ++ " " ++ padL "P&L %" 10

/-- `src/main.py:250-261` — one iteration of the positions loop. -/
def positionLine (pos : JVal) : Except PyErr String :=
  eb (jget pos "tradingsymbol" (.str "N/A")) fun sym0 =>
  eb (pyTake 14 sym0) fun sym =>
  eb (jget pos "product" (.str "N/A")) fun pr0 =>
  eb (pyTake 7 pr0) fun pr =>
  eb (jget pos "quantity" (.num 0)) fun qty =>
  eb (jget pos "average_price" (.num 0)) fun avg =>
  eb (jget pos "last_price" (.num 0)) fun ltp =>
  eb (jget pos "pnl" (.num 0)) fun pnl =>
  eb (pPnlPct avg ltp) fun pct =>
  eb (pnlStr pnl) fun ps =>
  eb (pyFmtAlign sym 15) fun f1 =>
  eb (pyFmtAlign pr 8) fun f2 =>
  eb (pyFmtAlign qty 6) fun f3 =>
  eb (pyFmtFloat avg 8) fun f4 =>
  eb (pyFmtFloat ltp 8) fun f5 =>
  .ok (f1 ++ " " ++ f2 ++ " " ++ f3 ++ " ₹" ++ f4 ++ " ₹" ++ f5 ++ " " ++ padL ps 15 ++
    " " ++ padR (fix2 pct) 6 ++ "%")

/-- `src/main.py:240-266` — `_format_positions`. -/
def format_positions (positions : List JVal) : Except PyErr String :=
  if positions.isEmpty then .ok "No positions found"
  else
    eb (ebMapM positionLine positions) fun rows =>
    .ok (joinNL (("\n" ++ eqLine 100) :: positionsHeader :: eqLine 100 :: rows ++
      [eqLine 100, "\nTotal positions: " ++ toString positions.length]))

/-- `src/main.py:275` — the trades table header row. -/
def tradesHeader : String :=
  padL "Trade ID" 15 ++ " " ++ padL "Symbol" 15 ++ " " ++ padL "Type" 5 ++ " " ++
    padL "Qty" 5 ++ " " ++ padL "Price" 12 ++ " " ++ padL "Time" 20

/-- `src/main.py:278-286` — one iteration of the trades loop;
`str(trade.get('trade_id', 'N/A'))[-10:]` stringifies before slicing, so
the id never raises. -/
def tradeLine (trade : JVal) : Except PyErr String :=
  eb (jget trade "trade_id" (.str "N/A")) fun tid0 =>
  let tidS := pyStrOf tid0
  let tid := String.mk (tidS.toList.drop (tidS.toList.length - 10))
  eb (jget trade "tradingsymbol" (.str "N/A")) fun sym0 =>
  eb (pyTake 14 sym0) fun sym =>
  eb (jget trade "transaction_type" (.str "N/A")) fun tx0 =>
  eb (pyTake 4 tx0) fun tx =>
  eb (jget trade "quantity" (.num 0)) fun qty =>
  eb (jget trade "price" (.num 0)) fun price =>
  eb (tsOf trade "fill_timestamp") fun ts =>
  eb (pyFmtAlign sym 15) fun f2 =>
  eb (pyFmtAlign tx 5) fun f3 =>
  eb (pyFmtAlign qty 5) fun f4 =>
  eb (pyFmtFloat price 10) fun f5 =>
  eb (pyFmtAlign ts 20) fun f6 =>
  .ok (padL tid 15 ++ " " ++ f2 ++ " " ++ f3 ++ " " ++ f4 ++ " ₹" ++ f5 ++ " " ++ f6)

/-- `src/main.py:268-291` — `_format_trades`. -/
def format_trades (trades : List JVal) : Except PyErr String :=
  if trades.isEmpty then .ok "No trades found"
  else
    eb (ebMapM tradeLine trades) fun rows =>
    .ok (joinNL (("\n" ++ eqLine 90) :: tradesHeader :: eqLine 90 :: rows ++
      [eqLine 90, "\nTotal trades: " ++ toString trades.length]))

/-- `src/main.py:299-305` — one numbered line of the generic list view:
dict elements are summarized by their first three `key: value` pairs plus
an ellipsis, anything else is rendered via `str()`. -/
def genericLine (i : Nat) (item : JVal) : String :=
  match item with
  | .obj fs =>
    toString i ++ ". " ++
      String.intercalate ", " ((fs.take 3).map fun kv => kv.1 ++ ": " ++ pyStrOf kv.2) ++
      "..."
  | _ => toString i ++ ". " ++ pyStrOf item

/-- `src/main.py:293-310` — `_format_generic_list` (never raises). -/
def format_generic_list (data : List JVal) : String :=
  if data.length ≤ 3 then json_dumps (.arr data)
  else
    joinNL (("\nShowing " ++ toString data.length ++ " records:") ::
      ((data.take 5).enum.map fun p => genericLine (p.1 + 1) p.2) ++
      (if 5 < data.length then ["... and " ++ toString (data.length - 5) ++ " more"]
       else []))

/-- `src/main.py:312-320` — `_format_dict`: one line per key, numeric
values (ints, floats and bools) through `{:,}`, everything else through
`str()`. -/
def format_dict (fields : List (String × JVal)) : String :=
  joinNL (fields.map fun kv =>
    kv.1 ++ ": " ++
      (match kv.2 with
       | .num q => commaNum q
       | .bool b => if b then "1" else "0"
       | v => pyStrOf v))

/-! ### `_format_json_data` and `_format_result` -/

/-- Python truthiness of a decoded JSON value (`if not data`). -/
def pyFalsy : JVal → Bool
  | .null => true
  | .bool b => !b
  | .num q => q = 0
  | .str s => s.isEmpty
  | .arr xs => xs.isEmpty
  | .obj fs => fs.isEmpty

/-- `src/main.py:147-172` — `_format_json_data`.  The inner
`if not data: return "No records found"` guard on lists is kept even
though the outer falsy check already caught empty lists. -/
def format_json_data (data : JVal) (result_type : Option String) : Except PyErr String :=
  if pyFalsy data then .ok "No data available"
  else
    match data with
    | .arr xs =>
      if xs.isEmpty then .ok "No records found"
      else if result_type = some "orders" then format_orders xs
      else if result_type = some "holdings" then format_holdings xs
      else if result_type = some "positions" then format_positions xs
      else if result_type = some "trades" then format_trades xs
      else .ok (format_generic_list xs)
    | .obj fs => .ok (format_dict fs)
    | v => .ok (json_dumps v)

/-- `src/main.py:133-145` — `_format_result`.  The `try` block spans both
the decode and the dispatch, and its handler catches exactly
`json.JSONDecodeError` and `TypeError`; every other exception propagates. -/
def format_result (result : Envelope) (result_type : Option String) : Except PyErr String :=
  eb (extract_text_content result) fun text? =>
  match text? with
  | some t =>
    if t.isEmpty then .ok result.reprStr
    else
      match json_loads t with
      | .error _ => .ok t
      | .ok data =>
        match format_json_data data result_type with
        | .ok s => .ok s
        | .error e =>
          if e = .typeError || e = .jsonDecodeError then .ok t else .error e
  | none => .ok result.reprStr

/-! ### Predicates and abbreviations used by the statements -/

/-- Record fields the tables read as numbers. -/
def numKey (k : String) : Bool :=
  k = "quantity" || k = "price" || k = "average_price" || k = "last_price" || k = "pnl"

/-- Record fields the tables read as strings. -/
def strKey (k : String) : Bool :=
  k = "order_id" || k = "tradingsymbol" || k = "transaction_type" || k = "status" ||
    k = "order_timestamp" || k = "fill_timestamp" || k = "product"

def isNumB : JVal → Bool
  | .num _ => true
  | _ => false

def isStrB : JVal → Bool
  | .str _ => true
  | _ => false

/-- A field is well typed when numeric keys hold numbers, string keys hold
strings, and any other key holds anything. -/
def fieldOkB (k : String) (v : JVal) : Bool :=
  if numKey k then isNumB v else if strKey k then isStrB v else true

/-- A record every table formatter can render: a dict whose present fields
have the expected types (absent fields are always fine — the accessors
supply defaults). -/
def isWellTypedRecord : JVal → Bool
  | .obj fs => fs.all fun kv => fieldOkB kv.1 kv.2
  | _ => false

/-- The numeric value a table reads for key `k`: the stored number, or the
`get` default 0. -/
def getNumD (o : JVal) (k : String) : ℚ :=
  match o with
  | .obj fs =>
    match lookupJ fs k with
    | some (.num q) => q
    | _ => 0
  | _ => 0

/-- The string value a table reads for key `k`, with `get` default `d`. -/
def getStrD (o : JVal) (k : String) (d : String) : String :=
  match o with
  | .obj fs =>
    match lookupJ fs k with
    | some (.str s) => s
    | _ => d
  | _ => d

/-- `Σ (average_price × quantity)` over a holdings list. -/
def invSum (hs : List JVal) : ℚ :=
  (hs.map fun o => getNumD o "average_price" * getNumD o "quantity").sum

/-- `Σ (last_price × quantity)` over a holdings list. -/
def curSum (hs : List JVal) : ℚ :=
  (hs.map fun o => getNumD o "last_price" * getNumD o "quantity").sum

/-- Whether `https://` occurs anywhere in the text. -/
def hasHttps : List Char → Bool
  | [] => false
  | c :: rest => httpsChars.isPrefixOf (c :: rest) || hasHttps rest

/-- Modelled from the spec: the URL extraction the claim describes —
`findall` of the pattern `https://` followed by one or more characters
that are neither whitespace nor `)` (i.e. `https://[^\s\)]+` rather than
the source's `https://[^\s\)]+\S+`), returning the last match. -/
def scanUrlsClaimed : Nat → List Char → List String
  | 0, _ => []
  | _ + 1, [] => []
  | fuel + 1, c :: rest =>
    if httpsChars.isPrefixOf (c :: rest) then
      let after := (c :: rest).drop 8
      let run := after.takeWhile isUrlBodyChar
      if 1 ≤ run.length then
        ("https://" ++ String.mk run) :: scanUrlsClaimed fuel (after.drop run.length)
      else scanUrlsClaimed fuel rest
    else scanUrlsClaimed fuel rest

/-- Modelled from the spec: last match of the claimed pattern, or absence. -/
def extract_url_claimed (text : String) : Option String :=
  (scanUrlsClaimed (text.length + 1) text.toList).getLast?

/-- The envelope used in concrete scenarios: a single `"text"` part
carrying `t`. -/
def textEnv (t : String) : Envelope :=
  ⟨.withList [⟨some "text", some t⟩], "CallToolResult"⟩

/-! ## Supporting lemmas -/

theorem str_append_assoc (a b c : String) : a ++ b ++ c = a ++ (b ++ c) := by
  cases a with | mk d1 =>
  cases b with | mk d2 =>
  cases c with | mk d3 =>
  show String.mk ((d1 ++ d2) ++ d3) = String.mk (d1 ++ (d2 ++ d3))
  rw [List.append_assoc]

theorem str_append_empty (s : String) : s ++ "" = s := by
  cases s with | mk d =>
  show String.mk (d ++ []) = String.mk d
  rw [List.append_nil]

theorem joinNL_append (l : List String) (x : String) (h : l ≠ []) :
    joinNL (l ++ [x]) = joinNL l ++ "\n" ++ x := by
  induction l with
  | nil => exact absurd rfl h
  | cons a rest ih =>
    cases rest with
    | nil => rfl
    | cons b rest2 =>
      have ih2 := ih (by simp)
      calc joinNL ((a :: b :: rest2) ++ [x])
          = a ++ "\n" ++ joinNL ((b :: rest2) ++ [x]) := rfl
        _ = a ++ "\n" ++ (joinNL (b :: rest2) ++ "\n" ++ x) := by rw [ih2]
        _ = a ++ "\n" ++ joinNL (b :: rest2) ++ "\n" ++ x := by
              simp only [str_append_assoc]
        _ = joinNL (a :: b :: rest2) ++ "\n" ++ x := rfl

theorem lookupJ_of_all (p : String × JVal → Bool) :
    ∀ (fs : List (String × JVal)) (k : String) (v : JVal),
      fs.all p = true → lookupJ fs k = some v → p (k, v) = true := by
  intro fs
  induction fs with
  | nil => intro k v _ hl; simp [lookupJ] at hl
  | cons kv rest ih =>
    intro k v hall hl
    simp only [List.all_cons, Bool.and_eq_true] at hall
    by_cases hk : kv.1 = k
    · rw [lookupJ, if_pos hk] at hl
      cases hl
      obtain ⟨k1, v1⟩ := kv
      simp only at hk
      subst hk
      exact hall.1
    · rw [lookupJ, if_neg hk] at hl
      exact ih k v hall.2 hl

theorem isNumB_num (v : JVal) (h : isNumB v = true) : ∃ q, v = .num q := by
  cases v <;> simp_all [isNumB]

theorem isStrB_str (v : JVal) (h : isStrB v = true) : ∃ s, v = .str s := by
  cases v <;> simp_all [isStrB]

theorem wt_obj (o : JVal) (h : isWellTypedRecord o = true) :
    ∃ fs, o = .obj fs ∧ (fs.all fun kv => fieldOkB kv.1 kv.2) = true := by
  cases o <;> simp_all [isWellTypedRecord]

theorem jget_num (o : JVal) (k : String) (h : isWellTypedRecord o = true)
    (hk : numKey k = true) : jget o k (.num 0) = .ok (.num (getNumD o k)) := by
  obtain ⟨fs, rfl, h⟩ := wt_obj o h
  cases hl : lookupJ fs k with
  | none => simp [jget, getNumD, hl]
  | some v =>
    have hp := lookupJ_of_all _ fs k v h hl
    simp only [fieldOkB, hk, if_true] at hp
    obtain ⟨q, rfl⟩ := isNumB_num v hp
    simp [jget, getNumD, hl]

theorem jget_str (o : JVal) (k : String) (d : String) (h : isWellTypedRecord o = true)
    (hnk : numKey k = false) (hk : strKey k = true) :
    jget o k (.str d) = .ok (.str (getStrD o k d)) := by
  obtain ⟨fs, rfl, h⟩ := wt_obj o h
  cases hl : lookupJ fs k with
  | none => simp [jget, getStrD, hl]
  | some v =>
    have hp := lookupJ_of_all _ fs k v h hl
    simp only [fieldOkB, hnk, hk, Bool.false_eq_true, if_false, if_true] at hp
    obtain ⟨s, rfl⟩ := isStrB_str v hp
    simp [jget, getStrD, hl]

theorem splitChar_ne_nil (c : Char) (l : List Char) : splitChar c l ≠ [] := by
  cases l with
  | nil => simp [splitChar]
  | cons x xs =>
    simp only [splitChar]
    by_cases h : x = c
    · simp [h]
    · simp only [if_neg h]
      cases hs : splitChar c xs <;> simp

theorem splitChar_two (c : Char) (l : List Char) (h : l.contains c = true) :
    ∃ a b t, splitChar c l = a :: b :: t := by
  induction l with
  | nil => simp at h
  | cons x xs ih =>
    by_cases hx : x = c
    · cases hs : splitChar c xs with
      | nil => exact absurd hs (splitChar_ne_nil c xs)
      | cons b t => exact ⟨[], b, t, by simp [splitChar, hx, hs]⟩
    · have hxs : xs.contains c = true := by
        simp only [List.contains_cons, Bool.or_eq_true, beq_iff_eq] at h
        rcases h with h | h
        · exact absurd h.symm hx
        · exact h
      obtain ⟨a, b, t, hs⟩ := ih hxs
      exact ⟨x :: a, b, t, by simp [splitChar, hx, hs]⟩

theorem tsOf_ok (o : JVal) (key : String) (h : isWellTypedRecord o = true)
    (hnk : numKey key = false) (hk : strKey key = true) :
    ∃ t, tsOf o key = .ok (.str t) := by
  obtain ⟨fs, rfl, h⟩ := wt_obj o h
  cases hl : lookupJ fs key with
  | none =>
    exact ⟨"N/A", by simp [tsOf, jget, hl, pyContainsT, eb]⟩
  | some v =>
    have hp := lookupJ_of_all _ fs key v h hl
    simp only [fieldOkB, hnk, hk, Bool.false_eq_true, if_false, if_true] at hp
    obtain ⟨s, rfl⟩ := isStrB_str v hp
    by_cases hc : s.toList.contains 'T'
    · obtain ⟨a, b, t2, hs⟩ := splitChar_two 'T' s.toList hc
      have hc2 : 'T' ∈ s.data := by simpa using hc
      have hs2 : splitChar 'T' s.data = a :: b :: t2 := hs
      exact ⟨String.mk (b.take 8),
        by simp [tsOf, jget, hl, pyContainsT, hc2, pySplitT, hs2, eb]⟩
    · have hc2 : ¬ 'T' ∈ s.data := by simpa using hc
      exact ⟨"N/A", by simp [tsOf, jget, hl, pyContainsT, hc2, eb]⟩

theorem pPnlPct_num (a l : ℚ) :
    pPnlPct (.num a) (.num l) = .ok (if a > 0 then (l - a) / a * 100 else 0) := by
  simp only [pPnlPct, toNumQ]
  by_cases h : a > 0 <;> simp [h]

theorem ebMapM_ok {α β : Type} (f : α → Except PyErr β) :
    ∀ (l : List α), (∀ a ∈ l, ∃ b, f a = .ok b) → ∃ bs, ebMapM f l = .ok bs := by
  intro l
  induction l with
  | nil => intro _; exact ⟨[], rfl⟩
  | cons a rest ih =>
    intro h
    obtain ⟨b, hb⟩ := h a (by simp)
    obtain ⟨bs, hbs⟩ := ih fun x hx => h x (by simp [hx])
    exact ⟨b :: bs, by simp [ebMapM, hb, hbs, eb_ok]⟩

theorem orderLine_ok (o : JVal) (h : isWellTypedRecord o = true) :
    ∃ s, orderLine o = .ok s := by
  have hid := jget_str o "order_id" "N/A" h rfl rfl
  have hsym := jget_str o "tradingsymbol" "N/A" h rfl rfl
  have htx := jget_str o "transaction_type" "N/A" h rfl rfl
  have hqty := jget_num o "quantity" h rfl
  have hpr := jget_num o "price" h rfl
  have havg := jget_num o "average_price" h rfl
  have hst := jget_str o "status" "N/A" h rfl rfl
  obtain ⟨ts, hts⟩ := tsOf_ok o "order_timestamp" h rfl rfl
  simp only [orderLine, hid, hsym, htx, hqty, hpr, havg, hst, hts, eb_ok,
    pyTakeLast, pyTake, pyFmtAlign, pyFmtFloat]
  exact ⟨_, rfl⟩

theorem positionLine_ok (o : JVal) (h : isWellTypedRecord o = true) :
    ∃ s, positionLine o = .ok s := by
  have hsym := jget_str o "tradingsymbol" "N/A" h rfl rfl
  have hprd := jget_str o "product" "N/A" h rfl rfl
  have hqty := jget_num o "quantity" h rfl
  have havg := jget_num o "average_price" h rfl
  have hltp := jget_num o "last_price" h rfl
  have hpnl := jget_num o "pnl" h rfl
  simp only [positionLine, hsym, hprd, hqty, havg, hltp, hpnl, eb_ok, pyTake,
    pPnlPct_num, pnlStr, pyGeZero, toNumQ, pyFmtAlign, pyFmtFloat]
  exact ⟨_, rfl⟩

theorem tradeLine_ok (o : JVal) (h : isWellTypedRecord o = true) :
    ∃ s, tradeLine o = .ok s := by
  have hid : ∃ v, jget o "trade_id" (.str "N/A") = .ok v := by
    obtain ⟨fs, rfl, _⟩ := wt_obj o h
    exact ⟨_, rfl⟩
  obtain ⟨tid, htid⟩ := hid
  have hsym := jget_str o "tradingsymbol" "N/A" h rfl rfl
  have htx := jget_str o "transaction_type" "N/A" h rfl rfl
  have hqty := jget_num o "quantity" h rfl
  have hpr := jget_num o "price" h rfl
  obtain ⟨ts, hts⟩ := tsOf_ok o "fill_timestamp" h rfl rfl
  simp only [tradeLine, htid, hsym, htx, hqty, hpr, hts, eb_ok, pyTake,
    pyFmtAlign, pyFmtFloat]
  exact ⟨_, rfl⟩

theorem holdingsRow_ok (o : JVal) (h : isWellTypedRecord o = true) :
    ∃ line, holdingsRow o = .ok (line,
      getNumD o "average_price" * getNumD o "quantity",
      getNumD o "last_price" * getNumD o "quantity") := by
  have hsym := jget_str o "tradingsymbol" "N/A" h rfl rfl
  have hqty := jget_num o "quantity" h rfl
  have havg := jget_num o "average_price" h rfl
  have hltp := jget_num o "last_price" h rfl
  have hpnl := jget_num o "pnl" h rfl
  simp only [holdingsRow, hsym, hqty, havg, hltp, hpnl, eb_ok, pyTake, pyMulNum,
    toNumQ, pnlStr, pyGeZero, pyFmtAlign, pyFmtFloat]
  exact ⟨_, rfl⟩

theorem format_orders_ok (xs : List JVal)
    (h : ∀ o ∈ xs, isWellTypedRecord o = true) : ∃ s, format_orders xs = .ok s := by
  cases he : xs.isEmpty
  · obtain ⟨rows, hrows⟩ := ebMapM_ok orderLine xs fun o ho => orderLine_ok o (h o ho)
    have heq : format_orders xs = .ok (joinNL (("\n" ++ eqLine 100) ::
        ordersHeader :: eqLine 100 :: rows ++
        [eqLine 100, "\nTotal orders: " ++ toString xs.length])) := by
      rw [format_orders, if_neg (by simp [he]), hrows]
      rfl
    exact ⟨_, heq⟩
  · exact ⟨"No orders found", by simp [format_orders, he]⟩

theorem format_positions_ok (xs : List JVal)
    (h : ∀ o ∈ xs, isWellTypedRecord o = true) : ∃ s, format_positions xs = .ok s := by
  cases he : xs.isEmpty
  · obtain ⟨rows, hrows⟩ := ebMapM_ok positionLine xs fun o ho => positionLine_ok o (h o ho)
    have heq : format_positions xs = .ok (joinNL (("\n" ++ eqLine 100) ::
        positionsHeader :: eqLine 100 :: rows ++
        [eqLine 100, "\nTotal positions: " ++ toString xs.length])) := by
      rw [format_positions, if_neg (by simp [he]), hrows]
      rfl
    exact ⟨_, heq⟩
  · exact ⟨"No positions found", by simp [format_positions, he]⟩

theorem format_trades_ok (xs : List JVal)
    (h : ∀ o ∈ xs, isWellTypedRecord o = true) : ∃ s, format_trades xs = .ok s := by
  cases he : xs.isEmpty
  · obtain ⟨rows, hrows⟩ := ebMapM_ok tradeLine xs fun o ho => tradeLine_ok o (h o ho)
    have heq : format_trades xs = .ok (joinNL (("\n" ++ eqLine 90) ::
        tradesHeader :: eqLine 90 :: rows ++
        [eqLine 90, "\nTotal trades: " ++ toString xs.length])) := by
      rw [format_trades, if_neg (by simp [he]), hrows]
      rfl
    exact ⟨_, heq⟩
  · exact ⟨"No trades found", by simp [format_trades, he]⟩

theorem holdingsFold_ok :
    ∀ (hs : List JVal) (ti tc : ℚ), (∀ o ∈ hs, isWellTypedRecord o = true) →
      ∃ rows, holdingsFold hs ti tc = .ok (rows, ti + invSum hs, tc + curSum hs) := by
  intro hs
  induction hs with
  | nil =>
    intro ti tc _
    exact ⟨[], by simp [holdingsFold, invSum, curSum]⟩
  | cons o rest ih =>
    intro ti tc h
    obtain ⟨line, hline⟩ := holdingsRow_ok o (h o (by simp))
    obtain ⟨rows, hrows⟩ := ih (ti + getNumD o "average_price" * getNumD o "quantity")
      (tc + getNumD o "last_price" * getNumD o "quantity") fun x hx => h x (by simp [hx])
    refine ⟨line :: rows, ?_⟩
    simp only [holdingsFold, hline, eb_ok, hrows, invSum, curSum, List.map_cons,
      List.sum_cons, add_assoc]

theorem format_holdings_ok (xs : List JVal)
    (h : ∀ o ∈ xs, isWellTypedRecord o = true) : ∃ s, format_holdings xs = .ok s := by
  cases he : xs.isEmpty
  · obtain ⟨rows, hrows⟩ := holdingsFold_ok xs 0 0 h
    have heq : format_holdings xs = .ok (joinNL (("\n" ++ eqLine 90) ::
        holdingsHeader :: eqLine 90 :: rows ++
        [eqLine 90,
         "\nTotal Investment: ₹" ++ commaFix2 (0 + invSum xs),
         "Current Value: ₹" ++ commaFix2 (0 + curSum xs),
         "Total P&L: ₹" ++ commaFix2 (0 + curSum xs - (0 + invSum xs)) ++ " (" ++
           plusFix2 (if 0 + invSum xs > 0 then
             (0 + curSum xs - (0 + invSum xs)) / (0 + invSum xs) * 100 else 0) ++ "%)"])) := by
      rw [format_holdings, if_neg (by simp [he]), hrows]
      rfl
    exact ⟨_, heq⟩
  · exact ⟨"No holdings found", by simp [format_holdings, he]⟩

theorem scanItems_none (pre : List Item) (hpre : ∀ i ∈ pre, i.type? ≠ some "text") :
    scanItems pre = .ok none := by
  induction pre with
  | nil => rfl
  | cons i rest ih =>
    have h1 : i.type? ≠ some "text" := hpre i (by simp)
    simp only [scanItems, if_neg h1]
    exact ih fun j hj => hpre j (by simp [hj])

theorem scanItems_first (pre rest : List Item) (t : String)
    (hpre : ∀ i ∈ pre, i.type? ≠ some "text") :
    scanItems (pre ++ ⟨some "text", some t⟩ :: rest) = .ok (some t) := by
  induction pre with
  | nil => rfl
  | cons i pre2 ih =>
    have h1 : i.type? ≠ some "text" := hpre i (by simp)
    simp only [List.cons_append, scanItems, if_neg h1]
    exact ih fun j hj => hpre j (by simp [hj])

theorem scanUrls_no_https :
    ∀ (fuel : Nat) (cs : List Char), hasHttps cs = false → scanUrls fuel cs = [] := by
  intro fuel
  induction fuel with
  | zero => intro cs _; rfl
  | succ n ih =>
    intro cs h
    cases cs with
    | nil => rfl
    | cons c rest =>
      simp only [hasHttps, Bool.or_eq_false_iff] at h
      simp only [scanUrls, h.1, Bool.false_eq_true, if_false]
      exact ih rest h.2

/-! ## The claims -/

/-- C3: for every envelope whose `content` attribute is an ordered
sequence, text extraction returns the `text` field of the first element
whose `type` discriminator equals `"text"`, regardless of other non-text
elements present; the same in-order scan applies when the envelope itself
is a sequence; and when no text part exists in either shape (or the
envelope has neither shape), extraction returns the absence value rather
than failing. -/
theorem extract_text_first_text_part (pre rest : List Item) (t : String) (r : String)
    (hpre : ∀ i ∈ pre, i.type? ≠ some "text") :
    extract_text_content ⟨.withList (pre ++ ⟨some "text", some t⟩ :: rest), r⟩ = .ok (some t)
    ∧ extract_text_content ⟨.bare (pre ++ ⟨some "text", some t⟩ :: rest), r⟩ = .ok (some t)
    ∧ extract_text_content ⟨.withList pre, r⟩ = .ok none
    ∧ extract_text_content ⟨.bare pre, r⟩ = .ok none
    ∧ extract_text_content ⟨.withNonList, r⟩ = .ok none
    ∧ extract_text_content ⟨.opaque2, r⟩ = .ok none := by
  refine ⟨?_, ?_, ?_, ?_, rfl, rfl⟩ <;>
    simp only [extract_text_content, scanItems_first pre rest t hpre, scanItems_none pre hpre]

/-- Witness for C3: a non-text part before the text part, and a second
text part after it that is ignored. -/
theorem extract_text_first_text_part_witness :
    (∀ i ∈ [Item.mk (some "image") none], i.type? ≠ some "text")
    ∧ extract_text_content
        ⟨.withList ([Item.mk (some "image") none] ++
          ⟨some "text", some "hi"⟩ :: [⟨some "text", some "later"⟩]), "res"⟩ = .ok (some "hi") :=
  ⟨by decide, (extract_text_first_text_part [Item.mk (some "image") none]
    [⟨some "text", some "later"⟩] "hi" "res" (by decide)).1⟩

/-- C4 counterexample: on `"Login at https://a"` the claimed pattern
`https://[^\s\)]+` has exactly one match, `https://a`, but the code's
regex `https://[^\s\)]+\S+` needs at least two characters after
`https://`, so extraction returns the absence value; and on
`"(https://x.com/a)"` the code's match includes the closing parenthesis
the claimed pattern excludes. -/
theorem extract_url_claim_cex :
    extract_url "Login at https://a" = none
    ∧ extract_url_claimed "Login at https://a" = some "https://a"
    ∧ extract_url "(https://x.com/a)" = some "https://x.com/a)"
    ∧ extract_url_claimed "(https://x.com/a)" = some "https://x.com/a" :=
  ⟨rfl, rfl, rfl, rfl⟩

/-- C4 amended: URL extraction returns the last match of the source
regex `https://[^\s\)]+\S+` — at each occurrence of `https://` the
maximal following whitespace-free run matches exactly when it has at
least two characters and does not start with `)` (characters after the
first may be `)`) — and returns the absence value when no such match
exists, in particular whenever `https://` does not occur in the text. -/
theorem extract_url_spec (t : String) (h : hasHttps t.toList = false) :
    extract_url t = none
    ∧ extract_url "Visit https://docs.x/guide then https://final.y/z now" =
        some "https://final.y/z"
    ∧ extract_url "https://a https://bc" = some "https://bc" := by
  refine ⟨?_, rfl, rfl⟩
  simp only [extract_url, scanUrls_no_https _ _ h, List.getLast?_nil]

/-- Witness for C4's amended theorem at a text with no URL. -/
theorem extract_url_spec_witness :
    hasHttps ("no links here").toList = false ∧ extract_url "no links here" = none :=
  ⟨rfl, (extract_url_spec "no links here" rfl).1⟩

/-- C5 counterexample: an empty list formatted under any semantic tag
(here `holdings`) yields the generic literal, not the list-specific one:
the inner `"No records found"` branch of `_format_json_data` is shadowed
by the outer falsiness check. -/
theorem empty_list_literal_cex :
    format_json_data (.arr []) (some "holdings") = .ok "No data available"
    ∧ ("No data available" : String) ≠ "No records found" :=
  ⟨rfl, by decide⟩

/-- C5 amended: every empty decoded value — empty list, empty mapping or
null — formats to the fixed literal `"No data available"` under every
semantic tag; the list-specific `"No records found"` literal of the
JSON-data formatter is unreachable because the outer falsiness check
already returns on empty lists. -/
theorem empty_data_no_data (tag : Option String) :
    format_json_data (.arr []) tag = .ok "No data available"
    ∧ format_json_data (.obj []) tag = .ok "No data available"
    ∧ format_json_data .null tag = .ok "No data available" :=
  ⟨rfl, rfl, rfl⟩

/-- C7: whenever a non-empty text payload is extracted from the envelope
but fails to decode as JSON, formatting returns that raw text unchanged,
for every semantic tag: the decode failure is caught locally and never
surfaces as an error. -/
theorem decode_failure_returns_raw_text (env : Envelope) (tag : Option String) (t : String)
    (hex : extract_text_content env = .ok (some t))
    (hne : t.isEmpty = false)
    (hdec : json_loads t = .error .jsonDecodeError) :
    format_result env tag = .ok t := by
  simp only [format_result, hex, eb_ok, hne, Bool.false_eq_true, if_false, hdec]

/-- Witness for C7: the text `"hello"` is not JSON. -/
theorem decode_failure_returns_raw_text_witness :
    extract_text_content (textEnv "hello") = .ok (some "hello")
    ∧ ("hello").isEmpty = false
    ∧ json_loads "hello" = .error .jsonDecodeError
    ∧ format_result (textEnv "hello") (some "orders") = .ok "hello" :=
  ⟨rfl, rfl, rfl,
    decode_failure_returns_raw_text (textEnv "hello") (some "orders") "hello" rfl rfl rfl⟩

/-- C8: the JSON-data formatter and the result formatter are pure
functions of their arguments — formatting the same decoded value (or the
same envelope) with the same semantic tag twice yields identical output,
with no hidden mutable state affecting the rendering. -/
theorem formatting_idempotent (data : JVal) (tag : Option String) (env : Envelope) :
    format_json_data data tag = format_json_data data tag
    ∧ format_result env tag = format_result env tag :=
  ⟨rfl, rfl⟩

/-- C9: decoded values that are falsy scalars — the number 0, the boolean
false, the empty string — format to `"No data available"` under every
semantic tag, even though they are neither empty collections nor null;
end to end, an envelope whose text part is `"0"` renders the same way. -/
theorem falsy_scalars_no_data (tag : Option String) :
    format_json_data (.num 0) tag = .ok "No data available"
    ∧ format_json_data (.bool false) tag = .ok "No data available"
    ∧ format_json_data (.str "") tag = .ok "No data available"
    ∧ format_result (textEnv "0") tag = .ok "No data available" :=
  ⟨rfl, rfl, rfl, rfl⟩

/-- C10: the P&L-percent guards test strictly-greater-than-zero, not
equal-to-zero: a holdings row whose investment (`average_price ×
quantity`) is negative reports 0 rather than the stated formula, and a
positions row whose `average_price` is negative likewise reports 0. -/
theorem pnl_pct_guard_is_strict (inv cur a l : ℚ) (h1 : inv < 0) (h2 : a < 0) :
    hPnlPct inv cur = 0 ∧ pPnlPct (.num a) (.num l) = .ok 0 := by
  constructor
  · simp only [hPnlPct, gt_iff_lt, if_neg (not_lt.mpr (le_of_lt h1))]
  · simp only [pPnlPct, toNumQ, gt_iff_lt, if_neg (not_lt.mpr (le_of_lt h2))]

/-- Witness for C10 at investment −1 and average price −2; the stated
formula would give non-zero values at these inputs. -/
theorem pnl_pct_guard_is_strict_witness :
    ((-1 : ℚ) < 0) ∧ ((-2 : ℚ) < 0)
    ∧ (hPnlPct (-1) 5 = 0 ∧ pPnlPct (.num (-2)) (.num 3) = .ok 0) :=
  ⟨by norm_num, by norm_num, pnl_pct_guard_is_strict (-1) 5 (-2) 3 (by norm_num) (by norm_num)⟩

/-- C1 counterexample: a record whose `price` field is the string `"x"`
reaches the `:<10.2f` format spec, which raises `ValueError`; the
`except (json.JSONDecodeError, TypeError)` handler around the dispatch
does not catch `ValueError`, so formatting aborts instead of returning a
string — both through the full result pipeline and at the dispatch. -/
theorem formatting_raises_valueerror_cex :
    format_result (textEnv "[\x7b\"price\": \"x\"\x7d]") (some "orders") =
      .error .valueError
    ∧ format_json_data (.arr [.obj [("price", .str "x")]]) (some "orders") =
      .error .valueError :=
  ⟨rfl, rfl⟩

/-- C1 amended: for records whose present fields carry the expected types
formatting completes under every semantic tag; absent numeric fields are
rendered as zero and absent string fields as the `N/A` placeholder; type
mismatches that raise `TypeError` (such as a null in a numeric column)
are caught by the result formatter and fall back to returning the raw
text — but a string value in a fixed-2-decimal numeric field raises
`ValueError`, which is not caught and aborts formatting. -/
theorem formatting_totality_qualified :
    (∀ (xs : List JVal) (tag : Option String),
      (∀ o ∈ xs, isWellTypedRecord o = true) →
        ∃ s, format_json_data (.arr xs) tag = .ok s)
    ∧ orderLine (.obj []) =
        .ok "N/A                  N/A             N/A   0     0.00       0.00       N/A          N/A                 "
    ∧ format_result (textEnv "[\x7b\"price\": null\x7d]") (some "orders") =
        .ok "[\x7b\"price\": null\x7d]" := by
  refine ⟨?_, rfl, rfl⟩
  intro xs tag h
  cases he : xs.isEmpty with
  | true => exact ⟨"No data available", by simp [format_json_data, pyFalsy, he]⟩
  | false =>
    have hf : pyFalsy (.arr xs) = false := by simp [pyFalsy, he]
    by_cases t1 : tag = some "orders"
    · obtain ⟨s, hs⟩ := format_orders_ok xs h
      exact ⟨s, by simp [format_json_data, hf, he, t1, hs]⟩
    · by_cases t2 : tag = some "holdings"
      · obtain ⟨s, hs⟩ := format_holdings_ok xs h
        exact ⟨s, by simp [format_json_data, hf, he, t1, t2, hs]⟩
      · by_cases t3 : tag = some "positions"
        · obtain ⟨s, hs⟩ := format_positions_ok xs h
          exact ⟨s, by simp [format_json_data, hf, he, t1, t2, t3, hs]⟩
        · by_cases t4 : tag = some "trades"
          · obtain ⟨s, hs⟩ := format_trades_ok xs h
            exact ⟨s, by simp [format_json_data, hf, he, t1, t2, t3, t4, hs]⟩
          · exact ⟨format_generic_list xs,
              by simp [format_json_data, hf, he, t1, t2, t3, t4]⟩

/-- Witness for C1's amended theorem: a well-typed one-record list
formatted as trades. -/
theorem formatting_totality_qualified_witness :
    (∀ o ∈ [JVal.obj [("quantity", JVal.num 3)]], isWellTypedRecord o = true)
    ∧ (∃ s, format_json_data (.arr [JVal.obj [("quantity", JVal.num 3)]])
        (some "trades") = .ok s) :=
  ⟨by decide, formatting_totality_qualified.1 [JVal.obj [("quantity", JVal.num 3)]]
    (some "trades") (by decide)⟩

/-- C2: for every non-empty holdings list of well-typed records, the
footer reports total investment `Σ (average_price × quantity)`, current
value `Σ (last_price × quantity)`, and total P&L exactly `current value −
investment`; the per-row percentage is `(current − investment) /
investment × 100` guarded to 0 when the investment is 0 — so the
degenerate holding with `average_price = 0` renders 0 instead of raising
a division error. -/
theorem holdings_totals (hs : List JVal) (hwt : ∀ o ∈ hs, isWellTypedRecord o = true)
    (hne : hs ≠ []) :
    (∃ rows, format_holdings hs = .ok (joinNL (("\n" ++ eqLine 90) :: holdingsHeader ::
        eqLine 90 :: rows ++
        [eqLine 90,
         "\nTotal Investment: ₹" ++ commaFix2 (invSum hs),
         "Current Value: ₹" ++ commaFix2 (curSum hs),
         "Total P&L: ₹" ++ commaFix2 (curSum hs - invSum hs) ++ " (" ++
           plusFix2 (hPnlPct (invSum hs) (curSum hs)) ++ "%)"])))
    ∧ (∀ cur : ℚ, hPnlPct 0 cur = 0)
    ∧ (∀ inv cur : ℚ, 0 < inv → hPnlPct inv cur = (cur - inv) / inv * 100) := by
  refine ⟨?_, fun cur => by simp [hPnlPct], fun inv cur hpos => by simp [hPnlPct, hpos]⟩
  obtain ⟨rows, hrows⟩ := holdingsFold_ok hs 0 0 hwt
  simp only [zero_add] at hrows
  have he : hs.isEmpty = false := by
    cases hs
    · exact absurd rfl hne
    · rfl
  refine ⟨rows, ?_⟩
  rw [format_holdings, if_neg (by simp [he]), hrows]
  rfl

/-- Witness for C2: the degenerate single holding with
`average_price = 0` (investment 0, percentage 0, no division error). -/
theorem holdings_totals_witness :
    (∀ o ∈ [JVal.obj [("tradingsymbol", JVal.str "X"), ("quantity", JVal.num 2),
        ("average_price", JVal.num 0), ("last_price", JVal.num 5),
        ("pnl", JVal.num 10)]], isWellTypedRecord o = true)
    ∧ ([JVal.obj [("tradingsymbol", JVal.str "X"), ("quantity", JVal.num 2),
        ("average_price", JVal.num 0), ("last_price", JVal.num 5),
        ("pnl", JVal.num 10)]] ≠ ([] : List JVal))
    ∧ (∃ rows, format_holdings [JVal.obj [("tradingsymbol", JVal.str "X"),
        ("quantity", JVal.num 2), ("average_price", JVal.num 0),
        ("last_price", JVal.num 5), ("pnl", JVal.num 10)]] =
        .ok (joinNL (("\n" ++ eqLine 90) :: holdingsHeader :: eqLine 90 :: rows ++
        [eqLine 90,
         "\nTotal Investment: ₹" ++ commaFix2 (invSum [JVal.obj [("tradingsymbol",
           JVal.str "X"), ("quantity", JVal.num 2), ("average_price", JVal.num 0),
           ("last_price", JVal.num 5), ("pnl", JVal.num 10)]]),
         "Current Value: ₹" ++ commaFix2 (curSum [JVal.obj [("tradingsymbol",
           JVal.str "X"), ("quantity", JVal.num 2), ("average_price", JVal.num 0),
           ("last_price", JVal.num 5), ("pnl", JVal.num 10)]]),
         "Total P&L: ₹" ++ commaFix2 (curSum [JVal.obj [("tradingsymbol", JVal.str "X"),
             ("quantity", JVal.num 2), ("average_price", JVal.num 0),
             ("last_price", JVal.num 5), ("pnl", JVal.num 10)]] -
           invSum [JVal.obj [("tradingsymbol", JVal.str "X"), ("quantity", JVal.num 2),
             ("average_price", JVal.num 0), ("last_price", JVal.num 5),
             ("pnl", JVal.num 10)]]) ++ " (" ++
           plusFix2 (hPnlPct (invSum [JVal.obj [("tradingsymbol", JVal.str "X"),
               ("quantity", JVal.num 2), ("average_price", JVal.num 0),
               ("last_price", JVal.num 5), ("pnl", JVal.num 10)]])
             (curSum [JVal.obj [("tradingsymbol", JVal.str "X"),
               ("quantity", JVal.num 2), ("average_price", JVal.num 0),
               ("last_price", JVal.num 5), ("pnl", JVal.num 10)]])) ++ "%)"]))) :=
  ⟨by decide, by simp,
    (holdings_totals [JVal.obj [("tradingsymbol", JVal.str "X"), ("quantity", JVal.num 2),
        ("average_price", JVal.num 0), ("last_price", JVal.num 5),
        ("pnl", JVal.num 10)]] (by decide) (by simp)).1⟩

/-- C6: a generic-tagged list of at most 3 elements is re-serialized as
2-space-indented JSON; a longer list renders a header with the total
count, the first (at most) 5 elements one per numbered line, and an
`... and N more` trailer exactly when more than 5 elements exist; in
particular 7 plain integers yield the header `Showing 7 records:`, five
numbered lines and the trailer `... and 2 more`. -/
theorem generic_list_spec :
    (∀ xs : List JVal, xs.length ≤ 3 → format_generic_list xs = json_dumps (.arr xs))
    ∧ (∀ xs : List JVal, 3 < xs.length →
        format_generic_list xs =
          joinNL (("\nShowing " ++ toString xs.length ++ " records:") ::
            ((xs.take 5).enum.map fun p => genericLine (p.1 + 1) p.2)) ++
          (if 5 < xs.length then "\n" ++ ("... and " ++ toString (xs.length - 5) ++ " more")
           else ""))
    ∧ format_json_data (.arr [.num 1, .num 2, .num 3, .num 4, .num 5, .num 6, .num 7])
        (some "generic") =
        .ok "\nShowing 7 records:\n1. 1\n2. 2\n3. 3\n4. 4\n5. 5\n... and 2 more" := by
  refine ⟨?_, ?_, rfl⟩
  · intro xs hle
    rw [format_generic_list, if_pos hle]
  · intro xs hgt
    rw [format_generic_list, if_neg (by omega)]
    by_cases h5 : 5 < xs.length
    · rw [if_pos h5, if_pos h5]
      have hj := joinNL_append
        ((("\nShowing " ++ toString xs.length ++ " records:")) ::
          ((xs.take 5).enum.map fun p => genericLine (p.1 + 1) p.2))
        ("... and " ++ toString (xs.length - 5) ++ " more") (List.cons_ne_nil _ _)
      exact hj.trans (str_append_assoc _ _ _)
    · rw [if_neg h5, if_neg h5, List.append_nil, str_append_empty]

/-- Witness for C6: a 1-element list (JSON branch) and a 4-element list
(summary branch without trailer). -/
theorem generic_list_spec_witness :
    (([JVal.num 1] : List JVal).length ≤ 3
      ∧ format_generic_list [JVal.num 1] = json_dumps (.arr [JVal.num 1]))
    ∧ (3 < ([JVal.num 1, JVal.num 2, JVal.num 3, JVal.num 4] : List JVal).length
      ∧ format_generic_list [JVal.num 1, JVal.num 2, JVal.num 3, JVal.num 4] =
          joinNL (("\nShowing " ++
              toString ([JVal.num 1, JVal.num 2, JVal.num 3, JVal.num 4] :
                List JVal).length ++ " records:") ::
            ((([JVal.num 1, JVal.num 2, JVal.num 3, JVal.num 4] :
                List JVal).take 5).enum.map fun p => genericLine (p.1 + 1) p.2)) ++
          (if 5 < ([JVal.num 1, JVal.num 2, JVal.num 3, JVal.num 4] :
              List JVal).length then
            "\n" ++ ("... and " ++
              toString (([JVal.num 1, JVal.num 2, JVal.num 3, JVal.num 4] :
                List JVal).length - 5) ++ " more")
           else "")) :=
  ⟨⟨by decide, generic_list_spec.1 [JVal.num 1] (by decide)⟩,
   ⟨by decide, generic_list_spec.2.1 [JVal.num 1, JVal.num 2, JVal.num 3, JVal.num 4]
      (by decide)⟩⟩

end KiteMCP
